import Mathlib

/-!
Verification of the `ContentManager` content storage/retrieval pipeline from
the Tales backend (`src/scripts/content-manager.new.ts`,
`src/scripts/content-manager.old.ts`, `src/scripts/pinata-service.ts`).

Strings are embedded at the level of JavaScript strings: a `List Nat` of
UTF-16 code units (`String.prototype.length` counts these units, and for
plain ASCII text one unit is one byte).  Byte buffers (`Buffer`) are
`List Nat` of byte values.  The external zlib compressor, the storage and
pinning HTTP APIs and the retrieval gateways are external collaborators of
the repository; they are modelled as explicit parameters (attempt oracles)
or, for the compressor, by an executable deflate-family model, so that
every pipeline function is an executable Lean definition.
-/

set_option maxRecDepth 10000

namespace Tales

/-- Open key-value metadata of a `TaleContent` record
(`metadata?: Record<string, any>`).  The pipeline only ever reads and
writes the key `compressed`, so the map is split into the value stored
under that key (`none` when the key is absent; the `Bool` is the JS
truthiness of the stored value) and the remaining key-value pairs, which
the pipeline copies verbatim via object spread. -/
structure Metadata where
  compressed : Option Bool
  others : List (String × String)
deriving DecidableEq, Repr

/-- The `TaleContent` interface of `content-manager.new.ts` /
`content-manager.old.ts`: `text` (JS string, as UTF-16 code units),
optional `media` and `tags` (already typed as arrays), `timestamp`
(a JS number, used as an integer count of milliseconds) and optional
`metadata`. -/
structure TaleContent where
  text : List Nat
  media : Option (List String)
  timestamp : Int
  tags : Option (List String)
  metadata : Option Metadata
deriving DecidableEq, Repr

/-! ### Base64 (`Buffer.prototype.toString('base64')` / `Buffer.from(·, 'base64')`) -/

/-- ASCII code of the base64 digit with value `n` (for `n < 64`),
per RFC 4648 as implemented by Node's `Buffer`. -/
def b64Char (n : Nat) : Nat :=
  if n < 26 then 65 + n
  else if n < 52 then 71 + n
  else if n < 62 then n - 4
  else if n = 62 then 43
  else 47

/-- Value of a base64 digit character (inverse of `b64Char` on the
alphabet; other characters are mapped to 0, matching the leniency of
`Buffer.from(·, 'base64')`). -/
def b64Val (c : Nat) : Nat :=
  if 65 ≤ c ∧ c ≤ 90 then c - 65
  else if 97 ≤ c ∧ c ≤ 122 then c - 71
  else if 48 ≤ c ∧ c ≤ 57 then c + 4
  else if c = 43 then 62
  else if c = 47 then 63
  else 0

/-- Model of `buf.toString('base64')`: encode a byte list as the ASCII codes of its
base64 representation (with `=` padding, code 61). -/
def b64Encode : List Nat → List Nat
  | [] => []
  | [a] => [b64Char (a / 4), b64Char (a % 4 * 16), 61, 61]
  | [a, b] => [b64Char (a / 4), b64Char (a % 4 * 16 + b / 16), b64Char (b % 16 * 4), 61]
  | a :: b :: c :: rest =>
      b64Char (a / 4) :: b64Char (a % 4 * 16 + b / 16) ::
        b64Char (b % 16 * 4 + c / 64) :: b64Char (c % 64) :: b64Encode rest

/-- Model of `Buffer.from(s, 'base64')`: decode four base64 characters at a time,
honouring `=` padding; trailing input shorter than a quartet is dropped
(Node's decoder likewise yields no byte for a single leftover digit). -/
def b64Decode : List Nat → List Nat
  | c0 :: c1 :: c2 :: c3 :: rest =>
      if c2 = 61 then [b64Val c0 * 4 + b64Val c1 / 16]
      else if c3 = 61 then
        [b64Val c0 * 4 + b64Val c1 / 16, b64Val c1 % 16 * 16 + b64Val c2 / 4]
      else
        (b64Val c0 * 4 + b64Val c1 / 16) :: (b64Val c1 % 16 * 16 + b64Val c2 / 4) ::
          (b64Val c2 % 4 * 64 + b64Val c3) :: b64Decode rest
  | _ => []

theorem b64Val_b64Char : ∀ n < 64, b64Val (b64Char n) = n := by decide

theorem b64Char_ne_pad : ∀ n < 64, b64Char n ≠ 61 := by decide

/-- Decoding inverts encoding on byte lists. -/
theorem b64Decode_b64Encode :
    ∀ l : List Nat, (∀ x ∈ l, x < 256) → b64Decode (b64Encode l) = l := by
  intro l
  induction l using b64Encode.induct with
  | case1 =>
      intro _; rfl
  | case2 a =>
      intro h
      have ha : a < 256 := h a (by simp)
      simp only [b64Encode, b64Decode, if_true, eq_self_iff_true]
      rw [b64Val_b64Char (a / 4) (by omega), b64Val_b64Char (a % 4 * 16) (by omega)]
      simp only [List.cons.injEq, and_true]
      omega
  | case3 a b =>
      intro h
      have ha : a < 256 := h a (by simp)
      have hb : b < 256 := h b (by simp)
      have h2 : b64Char (b % 16 * 4) ≠ 61 := b64Char_ne_pad _ (by omega)
      simp only [b64Encode, b64Decode, if_neg h2, if_true, eq_self_iff_true]
      rw [b64Val_b64Char (a / 4) (by omega), b64Val_b64Char (a % 4 * 16 + b / 16) (by omega),
        b64Val_b64Char (b % 16 * 4) (by omega)]
      simp only [List.cons.injEq, and_true]
      omega
  | case4 a b c rest ih =>
      intro h
      have ha : a < 256 := h a (by simp)
      have hb : b < 256 := h b (by simp)
      have hc : c < 256 := h c (by simp)
      have h2 : b64Char (b % 16 * 4 + c / 64) ≠ 61 := b64Char_ne_pad _ (by omega)
      have h3 : b64Char (c % 64) ≠ 61 := b64Char_ne_pad _ (by omega)
      simp only [b64Encode, b64Decode, if_neg h2, if_neg h3]
      rw [b64Val_b64Char (a / 4) (by omega), b64Val_b64Char (a % 4 * 16 + b / 16) (by omega),
        b64Val_b64Char (b % 16 * 4 + c / 64) (by omega), b64Val_b64Char (c % 64) (by omega),
        ih (fun x hx => h x (by simp [hx]))]
      simp only [List.cons.injEq, and_true]
      omega

/-- Base64 never shortens: the encoding of `l` is at least as long as `l`. -/
theorem b64Encode_length_ge : ∀ l : List Nat, l.length ≤ (b64Encode l).length := by
  intro l
  induction l using b64Encode.induct with
  | case1 => simp [b64Encode]
  | case2 a => simp [b64Encode]
  | case3 a b => simp [b64Encode]
  | case4 a b c rest ih => simp only [b64Encode, List.length_cons]; omega

/-! ### UTF-8 (`Buffer.from(string)` / `buf.toString()`) -/

/-- UTF-8 bytes of one UTF-16 code unit (`Buffer.from` encodes each unit of
a JS string; units below 0x80 are one byte, below 0x800 two, others three). -/
def utf8EncodeUnit (c : Nat) : List Nat :=
  if c < 128 then [c]
  else if c < 2048 then [192 + c / 64, 128 + c % 64]
  else [224 + c / 4096, 128 + c / 64 % 64, 128 + c % 64]

/-- Model of `Buffer.from(text)`: UTF-8 bytes of a JS string (list of code units). -/
def utf8Encode (l : List Nat) : List Nat :=
  (l.map utf8EncodeUnit).flatten

/-- Model of `buf.toString()`: decode UTF-8 bytes back to code units; malformed
sequences decode to the replacement character U+FFFD, as Node does. -/
def utf8Decode : List Nat → List Nat
  | [] => []
  | [b] => if b < 128 then [b] else [65533]
  | [b, c] =>
      if b < 128 then b :: utf8Decode [c]
      else if 192 ≤ b ∧ b < 224 ∧ 128 ≤ c ∧ c < 192 then [(b - 192) * 64 + (c - 128)]
      else 65533 :: utf8Decode [c]
  | b :: c :: d :: rest =>
      if b < 128 then b :: utf8Decode (c :: d :: rest)
      else if 192 ≤ b ∧ b < 224 then
        (if 128 ≤ c ∧ c < 192 then ((b - 192) * 64 + (c - 128)) :: utf8Decode (d :: rest)
         else 65533 :: utf8Decode (c :: d :: rest))
      else if 224 ≤ b ∧ b < 240 then
        (if 128 ≤ c ∧ c < 192 ∧ 128 ≤ d ∧ d < 192 then
           ((b - 224) * 4096 + (c - 128) * 64 + (d - 128)) :: utf8Decode rest
         else 65533 :: utf8Decode (c :: d :: rest))
      else 65533 :: utf8Decode (c :: d :: rest)
termination_by l => l.length
decreasing_by all_goals simp only [List.length_cons]; omega

/-- On plain ASCII strings, UTF-8 encoding is the identity on code units. -/
theorem utf8Encode_ascii :
    ∀ l : List Nat, (∀ x ∈ l, x < 128) → utf8Encode l = l := by
  intro l h
  induction l with
  | nil => rfl
  | cons a rest ih =>
      have ha : a < 128 := h a (by simp)
      simp only [utf8Encode, List.map_cons, List.flatten_cons] at ih ⊢
      rw [utf8EncodeUnit, if_pos ha, ih (fun x hx => h x (by simp [hx]))]
      rfl

/-- On plain ASCII byte lists, UTF-8 decoding is the identity. -/
theorem utf8Decode_ascii :
    ∀ l : List Nat, (∀ x ∈ l, x < 128) → utf8Decode l = l := by
  intro l h
  induction l using utf8Decode.induct <;> simp_all [utf8Decode]

/-- UTF-8 encoding never shortens a string (each unit gives ≥ 1 byte). -/
theorem utf8Encode_length_ge : ∀ l : List Nat, l.length ≤ (utf8Encode l).length := by
  intro l
  induction l with
  | nil => simp [utf8Encode]
  | cons a rest ih =>
      simp only [utf8Encode, List.map_cons, List.flatten_cons, List.length_append,
        List.length_cons] at ih ⊢
      have : 1 ≤ (utf8EncodeUnit a).length := by
        rw [utf8EncodeUnit]
        split
        · simp
        · split <;> simp
      omega

/-! ### The external compressor (`zlib.gzip` / `zlib.gunzip`)

`Modelled from the spec:` the compression collaborator is the external
`zlib` library (not part of this repository's sources); the spec describes
it only as "a general-purpose deflate-family algorithm" whose output is a
reversible encoding of the text.  It is modelled here as an executable
RFC 1952 gzip stream that uses stored (uncompressed) DEFLATE blocks — a
valid member of the deflate family (what `zlib` emits at compression
level 0) — with the CRC32 checksum field modelled as zero. -/

/-- DEFLATE stored-block encoding: blocks of at most 65535 bytes, each
prefixed by a block-header byte (BFINAL/BTYPE), the 16-bit length and its
ones' complement, little-endian. -/
def deflateStored (l : List Nat) : List Nat :=
  if l.length ≤ 65535 then
    1 :: l.length % 256 :: l.length / 256 ::
      (65535 - l.length) % 256 :: (65535 - l.length) / 256 :: l
  else
    0 :: 255 :: 255 :: 0 :: 0 :: (l.take 65535 ++ deflateStored (l.drop 65535))
termination_by l.length
decreasing_by simp only [List.length_drop]; omega

/-- DEFLATE stored-block decoding; expects exactly the 8 trailer bytes of
the enclosing gzip stream after the final block. -/
def inflateStored : List Nat → Option (List Nat)
  | 1 :: lo :: hi :: _n1 :: _n2 :: rest =>
      if lo + 256 * hi + 8 = rest.length then some (rest.take (lo + 256 * hi)) else none
  | 0 :: 255 :: 255 :: 0 :: 0 :: rest =>
      if 65535 ≤ rest.length then (inflateStored (rest.drop 65535)).map (rest.take 65535 ++ ·)
      else none
  | _ => none
termination_by l => l.length
decreasing_by simp only [List.length_drop, List.length_cons]; omega

/-- Little-endian 4-byte encoding of `n % 2^32` (the gzip ISIZE field). -/
def le32 (n : Nat) : List Nat :=
  [n % 256, n / 256 % 256, n / 65536 % 256, n / 16777216 % 256]

/-- The gzip member: RFC 1952 header (magic `1f 8b`, method 8 = deflate,
zero flags and mtime, OS byte 3), deflate data, CRC32 (modelled 0), ISIZE. -/
def gzipModel (l : List Nat) : List Nat :=
  [31, 139, 8, 0, 0, 0, 0, 0, 0, 3] ++ deflateStored l ++ ([0, 0, 0, 0] ++ le32 l.length)

/-- Model of `zlib.gunzip`: parse the header, inflate; `none` models a thrown
`Error` on malformed input. -/
def gunzipModel : List Nat → Option (List Nat)
  | 31 :: 139 :: 8 :: _f :: _m1 :: _m2 :: _m3 :: _m4 :: _xf :: _os :: rest =>
      inflateStored rest
  | _ => none

theorem inflateStored_deflateStored (tr : List Nat) (htr : tr.length = 8) :
    ∀ l : List Nat, inflateStored (deflateStored l ++ tr) = some l := by
  suffices key : ∀ n, ∀ l : List Nat, l.length = n →
      inflateStored (deflateStored l ++ tr) = some l by
    intro l; exact key l.length l rfl
  intro n
  induction n using Nat.strong_induction_on with
  | _ n ih =>
    intro l hl
    subst hl
    by_cases h : l.length ≤ 65535
    · rw [deflateStored, if_pos h]
      have hlo : l.length % 256 + 256 * (l.length / 256) = l.length := by omega
      simp only [List.cons_append, inflateStored, List.length_append, htr, hlo]
      simp [List.take_left]
    · rw [deflateStored, if_neg h]
      push_neg at h
      have h1 : (l.take 65535).length = 65535 := by
        simp only [List.length_take]; omega
      simp only [List.cons_append, List.append_assoc, inflateStored]
      rw [if_pos (by simp only [List.length_append, h1]; omega)]
      rw [List.drop_append_of_le_length (by omega), List.take_append_of_le_length (by omega)]
      have h2 : (l.take 65535).drop 65535 = [] := by
        apply List.drop_eq_nil_of_le; omega
      have h3 : (l.take 65535).take 65535 = l.take 65535 := by
        apply List.take_of_length_le; omega
      rw [h2, h3]
      simp only [List.nil_append]
      rw [ih (l.drop 65535).length (by simp only [List.length_drop]; omega) _ rfl]
      simp

/-- The gzip model round-trips: decompression inverts compression. -/
theorem gunzipModel_gzipModel (l : List Nat) : gunzipModel (gzipModel l) = some l := by
  rw [gzipModel]
  simp only [List.cons_append, List.nil_append]
  rw [gunzipModel]
  exact inflateStored_deflateStored _ (by simp [le32]) l

/-- The gzip stream is strictly longer than its input (header 10 bytes,
≥ 5 bytes of block framing, 8 trailer bytes). -/
theorem gzipModel_length_ge (l : List Nat) : l.length + 23 ≤ (gzipModel l).length := by
  have hd : ∀ n, ∀ l' : List Nat, l'.length = n → l'.length + 5 ≤ (deflateStored l').length := by
    intro n
    induction n using Nat.strong_induction_on with
    | _ n ih =>
      intro l' hl
      by_cases h : l'.length ≤ 65535
      · rw [deflateStored, if_pos h]; simp
      · rw [deflateStored, if_neg h]
        push_neg at h
        have := ih (l'.drop 65535).length (by simp only [List.length_drop]; omega) _ rfl
        simp only [List.length_cons, List.length_append, List.length_take,
          List.length_drop] at this ⊢
        omega
  have := hd l.length l rfl
  simp only [gzipModel, List.length_append, List.length_cons, le32]
  simp only [List.length_cons, List.length_nil]
  omega

/-- All bytes of the gzip stream are byte-valued when the input is. -/
theorem gzipModel_lt_256 (l : List Nat) (h : ∀ x ∈ l, x < 256) :
    ∀ x ∈ gzipModel l, x < 256 := by
  have hd : ∀ n, ∀ l' : List Nat, l'.length = n → (∀ x ∈ l', x < 256) →
      ∀ x ∈ deflateStored l', x < 256 := by
    intro n
    induction n using Nat.strong_induction_on with
    | _ n ih =>
      intro l' hl hb
      by_cases h' : l'.length ≤ 65535
      · rw [deflateStored, if_pos h']
        intro x hx
        simp only [List.mem_cons] at hx
        rcases hx with rfl | rfl | rfl | rfl | rfl | hx
        · omega
        · omega
        · omega
        · omega
        · omega
        · exact hb x hx
      · rw [deflateStored, if_neg h']
        push_neg at h'
        intro x hx
        simp only [List.mem_cons, List.mem_append] at hx
        rcases hx with rfl | rfl | rfl | rfl | rfl | hx | hx
        · omega
        · omega
        · omega
        · omega
        · omega
        · exact hb x (List.mem_of_mem_take hx)
        · exact ih (l'.drop 65535).length (by simp only [List.length_drop]; omega) _ rfl
            (fun y hy => hb y (List.mem_of_mem_drop hy)) x hx
  intro x hx
  rw [gzipModel] at hx
  rcases List.mem_append.mp hx with h1 | h2
  · rcases List.mem_append.mp h1 with hA | hdefl
    · simp only [List.mem_cons, List.not_mem_nil, or_false] at hA
      omega
    · exact hd l.length l rfl h x hdefl
  · simp only [le32, List.mem_append, List.mem_cons, List.not_mem_nil, or_false] at h2
    omega

/-! ### Validation and compression (`content-manager.new.ts`, also verbatim in
`content-manager.old.ts`) -/

/-- The class field `maxContentSize = 100000` (100KB limit for text content). -/
def maxContentSize : Nat := 100000

/-- The class field `maxRetries = 3`. -/
def maxRetries : Nat := 3

/-- The class field `retryDelay = 1000` (one second, in milliseconds). -/
def retryDelay : Nat := 1000

/-- The method `validateContent`: returns the message of the thrown `Error`, or `none`
when the record passes.  `!content.text` is true exactly for the empty
string; `content.text.length` counts UTF-16 code units; the `media` and
`tags` `Array.isArray` checks cannot fail on records of the typed
interface; `!content.timestamp || typeof content.timestamp !== 'number'`
is true for a numeric timestamp exactly when it is `0` (or `NaN`). -/
def validateContent (c : TaleContent) : Option String :=
  if c.text = [] then some "Content text is required"
  else if c.text.length > maxContentSize then
    some "Content text exceeds maximum size of 100000 bytes"
  else if c.timestamp = 0 then some "Valid timestamp is required"
  else none

/-- Truthiness of `content.metadata?.compressed`. -/
def metadataCompressedTruthy : Option Metadata → Bool
  | some m => m.compressed.getD false
  | none => false

/-- Spread-and-overwrite `{ ...mo, compressed: b }`: spread the old metadata (if any) and
overwrite the `compressed` key. -/
def setCompressed (mo : Option Metadata) (b : Bool) : Metadata :=
  { compressed := some b, others := (mo.map Metadata.others).getD [] }

/-- The method `compressContent`: gzip + base64 re-encode the text and force
`metadata.compressed = true` when `content.text.length > 1000` (JS string
length, i.e. UTF-16 code units); otherwise return the record unchanged. -/
def compressContent (c : TaleContent) : TaleContent :=
  if c.text.length > 1000 then
    { c with
      text := b64Encode (gzipModel (utf8Encode c.text)),
      metadata := some (setCompressed c.metadata true) }
  else c

/-! ### Retrieval (`content-manager.new.ts` `retrieveContent`, and the
gateway-fallback `retrieveContent` of the second class in
`content-manager.old.ts`) -/

/-- Failure cases of `retrieveContent` in `content-manager.new.ts`:
the single-gateway fetch failed (`Failed to fetch content`), or
`zlib.gunzip` threw on a malformed compressed payload. -/
inductive NewRetrieveErr where
  | fetchFailed
  | gunzipFailed
deriving DecidableEq, Repr

/-- The method `retrieveContent` of `content-manager.new.ts`, applied to the outcome
of the single `https://ipfs.io/ipfs/{cid}` fetch (`none` = network error or
non-ok response; `some c` = ok response whose JSON body parsed as `c`):
if `metadata?.compressed` is truthy, base64-decode and gunzip `text` and
clear the flag to `false`; otherwise return the parsed record as is. -/
def retrieveContentNew (fetch : Option TaleContent) : Except NewRetrieveErr TaleContent :=
  match fetch with
  | none => .error .fetchFailed
  | some c =>
    if metadataCompressedTruthy c.metadata then
      match gunzipModel (b64Decode c.text) with
      | some b =>
          .ok { c with
            text := utf8Decode b,
            metadata := some (setCompressed c.metadata false) }
      | none => .error .gunzipFailed
    else .ok c

/-- Gateway URL of the primary store (NFT.Storage). -/
def urlNftStorage (hash : String) : String := "https://nftstorage.link/ipfs/" ++ hash

/-- Public mirror gateway URL. -/
def urlIpfsMirror (hash : String) : String := "https://ipfs.io/ipfs/" ++ hash

/-- Pinning-service (Pinata) gateway URL. -/
def urlPinata (hash : String) : String := "https://gateway.pinata.cloud/ipfs/" ++ hash

/-- The fixed gateway list of the fallback `retrieveContent`
(second class of `content-manager.old.ts`, lines 182–186). -/
def fallbackGateways (hash : String) : List String :=
  [urlNftStorage hash, urlIpfsMirror hash, urlPinata hash]

/-- The error thrown when the gateway list is exhausted
(`"Could not retrieve content from any gateway"` in the source; the spec's
error taxonomy names it `RetrievalError`). -/
inductive RetrievalError where
  | notFoundOnAnyGateway
deriving DecidableEq, Repr

/-- The fallback loop: try each gateway in order (`none` = thrown fetch or
non-ok response, both of which `continue`); return the first parsed body;
throw `RetrievalError` after the last gateway.  Also returns the list of
gateways actually fetched, in the order they were called. -/
def tryGateways (fetch : String → Option TaleContent) :
    List String → Except RetrievalError TaleContent × List String
  | [] => (.error .notFoundOnAnyGateway, [])
  | g :: rest =>
    match fetch g with
    | some c => (.ok c, [g])
    | none =>
        let r := tryGateways fetch rest
        (r.1, g :: r.2)

/-- The method `retrieveContent` of the second class in `content-manager.old.ts`:
multi-gateway fallback over `fallbackGateways` (no decompression step in
that variant). -/
def retrieveContentFallback (fetch : String → Option TaleContent) (hash : String) :
    Except RetrievalError TaleContent × List String :=
  tryGateways fetch (fallbackGateways hash)

/-! ### `verifyContent` (first class of `content-manager.old.ts`)

`verifyContent` runs on whatever JSON the gateway returned, so the shape
of the parsed document is not guaranteed; its `typeof` checks are modelled
on a loosely-typed record whose `text` and `timestamp` fields are
arbitrary JSON values. -/

/-- A JSON value as far as the `typeof` checks can distinguish it. -/
inductive JsVal where
  | jstr (s : List Nat)
  | jnum (n : Int)
  | jbool (b : Bool)
  | jnull
deriving DecidableEq, Repr

/-- A parsed JSON document with the fields `verifyContent` and the
decompression step inspect. -/
structure RawContent where
  text : JsVal
  timestamp : JsVal
  metadata : Option Metadata
deriving DecidableEq, Repr

/-- Failure cases of `retrieveContent` in the first class of
`content-manager.old.ts` (single gateway + decompression). -/
inductive OldRetrieveErr where
  | fetchFailed
  | nullContent
  | textNotString
  | gunzipFailed
deriving DecidableEq, Repr

/-- The method `retrieveContent` of the first class in `content-manager.old.ts`,
applied to the fetch outcome: `none` = network error or non-ok response;
`some none` = ok response whose body parsed as JSON `null` (reading
`content.metadata` then throws); `some (some c)` = parsed document `c`.
When `metadata?.compressed` is truthy the `text` field is base64-decoded
and gunzipped (`Buffer.from` throws if `text` is not a string). -/
def retrieveContentOldSingle (fetch : Option (Option RawContent)) :
    Except OldRetrieveErr RawContent :=
  match fetch with
  | none => .error .fetchFailed
  | some none => .error .nullContent
  | some (some c) =>
    if metadataCompressedTruthy c.metadata then
      match c.text with
      | .jstr s =>
        match gunzipModel (b64Decode s) with
        | some b =>
            .ok { c with
              text := .jstr (utf8Decode b),
              metadata := some (setCompressed c.metadata false) }
        | none => .error .gunzipFailed
      | _ => .error .textNotString
    else .ok c

/-- The method `verifyContent`: `try { const content = await retrieveContent(cid);
return !!content && typeof content.text === 'string' && typeof
content.timestamp === 'number' } catch { return false }`. -/
def verifyContent (fetch : Option (Option RawContent)) : Bool :=
  match retrieveContentOldSingle fetch with
  | .ok c =>
      (match c.text with | .jstr _ => true | _ => false) &&
      (match c.timestamp with | .jnum _ => true | _ => false)
  | .error _ => false

/-! ### The retry mechanism (`content-manager.new.ts`, `retry<T>`)

Each call of the underlying operation is an external network effect, so an
operation is modelled as an oracle from the attempt index (0-based) to its
outcome.  `retry` additionally treats a successful result that is a string
starting with `ipfs://` as an upload confirmation to be re-checked via
`verifyIPFS` (another network oracle); a failed check throws
`'Content verification failed'`, which is caught like any other attempt
failure. -/

/-- What a single `retry` attempt can leave in `lastError`. -/
inductive RetryErr (ε : Type) where
  | opErr (e : ε)
  | verifyFailed
  | noAttempts
deriving DecidableEq

/-- Outcome of a `retry` call: the returned value or the propagated last
error, the number of attempts actually made, and the backoff delays slept
(in order, in milliseconds). -/
structure RetryResult (α ε : Type) where
  result : Except (RetryErr ε) α
  attempts : Nat
  delays : List Nat

/-- The `for (let i = 0; i < maxRetries; i++)` loop of `retry`, from
attempt index `i` with `fuel = maxRetries - i` iterations left.
`op i` is attempt `i`'s outcome, `isConfirm r` models
`typeof result === 'string' && result.startsWith('ipfs://')`, and
`verify i r` the `verifyIPFS` fetch on attempt `i`.  A failure sleeps
`delay * 2^i` and retries iff `i < maxRetries - 1` (i.e. more fuel left);
the final failure propagates the last error without sleeping. -/
def retryFrom (op : Nat → Except ε α) (isConfirm : α → Bool) (verify : Nat → α → Bool)
    (delay : Nat) : Nat → Nat → RetryResult α ε
  | 0, i => ⟨.error .noAttempts, i, []⟩
  | 1, i =>
    match op i with
    | .ok r =>
      if isConfirm r ∧ ¬ verify i r then ⟨.error .verifyFailed, i + 1, []⟩
      else ⟨.ok r, i + 1, []⟩
    | .error e => ⟨.error (.opErr e), i + 1, []⟩
  | fuel + 2, i =>
    match op i with
    | .ok r =>
      if isConfirm r ∧ ¬ verify i r then
        let rest := retryFrom op isConfirm verify delay (fuel + 1) (i + 1)
        ⟨rest.result, rest.attempts, delay * 2 ^ i :: rest.delays⟩
      else ⟨.ok r, i + 1, []⟩
    | .error _e =>
        let rest := retryFrom op isConfirm verify delay (fuel + 1) (i + 1)
        ⟨rest.result, rest.attempts, delay * 2 ^ i :: rest.delays⟩

/-- The call `this.retry(operation)` with the class configuration
(`maxRetries = 3`, `retryDelay = 1000`). -/
def retryRun (op : Nat → Except ε α) (isConfirm : α → Bool)
    (verify : Nat → α → Bool) : RetryResult α ε :=
  retryFrom op isConfirm verify retryDelay maxRetries 0

/-- The check `typeof result === 'string' && result.startsWith('ipfs://')` for the
string-valued operations (`storeBlob`, `pinFileToIPFS`). -/
def isIpfsUri (s : String) : Bool := s.startsWith "ipfs://"

/-! ### Upload operations (`content-manager.new.ts`) -/

/-- An error escaping `uploadContent` / `uploadMedia`: either the
validation `Error` thrown before any network call, or the last error of an
exhausted retry loop, rethrown as-is. -/
inductive UploadErr (ε : Type) where
  | validationErr (msg : String)
  | opFailed (e : RetryErr ε)
deriving DecidableEq

/-- Outcome of an upload call: the returned `ipfs://` URI or the error,
plus how many attempts the primary-store retry loop and the pin retry loop
made (0 = the loop was never entered). -/
structure UploadOutcome (ε : Type) where
  result : Except (UploadErr ε) String
  storeAttempts : Nat
  pinAttempts : Nat

/-- The method `uploadContent`: validate (throwing before any network call), compress,
`retry(() => nftstorage.storeBlob(blob))` on the serialized compressed
record, then `retry(() => pinFileToIPFS(compressedContent,
`tale_${content.timestamp}`))`; return `ipfs://{cid}`.  The two network
dependencies are oracles receiving the compressed record (and for the pin,
the record timestamp, from which the deterministic remote name
`tale_{timestamp}` is interpolated) plus the attempt index. -/
def uploadContent (c : TaleContent)
    (store : TaleContent → Nat → Except ε String)
    (pin : TaleContent → Int → Nat → Except ε String)
    (storeVerify pinVerify : Nat → String → Bool) : UploadOutcome ε :=
  match validateContent c with
  | some msg => ⟨.error (.validationErr msg), 0, 0⟩
  | none =>
    let compressed := compressContent c
    let sres := retryRun (store compressed) isIpfsUri storeVerify
    match sres.result with
    | .error e => ⟨.error (.opFailed e), sres.attempts, 0⟩
    | .ok cid =>
      let pres := retryRun (pin compressed c.timestamp) isIpfsUri pinVerify
      match pres.result with
      | .error e => ⟨.error (.opFailed e), sres.attempts, pres.attempts⟩
      | .ok _ => ⟨.ok ("ipfs://" ++ cid), sres.attempts, pres.attempts⟩

/-- The method `uploadMedia`: no validation at all — straight to
`retry(() => nftstorage.storeBlob(blob))` on the raw buffer and MIME type,
then `retry(() => pinFileToIPFS(file, `media_${Date.now()}`))`;
`now` is the external clock value from which the remote name
`media_{now}` is interpolated. -/
def uploadMedia (file : List Nat) (mediaType : String) (now : Int)
    (store : List Nat → String → Nat → Except ε String)
    (pin : List Nat → Int → Nat → Except ε String)
    (storeVerify pinVerify : Nat → String → Bool) : UploadOutcome ε :=
  let sres := retryRun (store file mediaType) isIpfsUri storeVerify
  match sres.result with
  | .error e => ⟨.error (.opFailed e), sres.attempts, 0⟩
  | .ok cid =>
    let pres := retryRun (pin file now) isIpfsUri pinVerify
    match pres.result with
    | .error e => ⟨.error (.opFailed e), sres.attempts, pres.attempts⟩
    | .ok _ => ⟨.ok ("ipfs://" ++ cid), sres.attempts, pres.attempts⟩

/-! ### Construction (`content-manager.new.ts` constructor) -/

/-- The message of the error thrown when the API key is missing. -/
def nftKeyErrMsg : String := "NFT_STORAGE_KEY is not set in environment variables"

/-- The constructed manager holds the NFT.Storage client configured with
the API key (`new NFTStorage({ token: apiKey })`). -/
structure ContentManager where
  token : String
deriving DecidableEq, Repr

/-- The `ContentManager` constructor: reads
`process.env.NFT_STORAGE_KEY` (`none` = variable unset) and throws if the
value is falsy (unset or the empty string). -/
def mkContentManager (env : Option String) : Except String ContentManager :=
  match env with
  | none => .error nftKeyErrMsg
  | some key => if key = "" then .error nftKeyErrMsg else .ok ⟨key⟩

theorem retryFrom_attempts_le {ε α : Type} (op : Nat → Except ε α) (isC : α → Bool)
    (v : Nat → α → Bool) (d : Nat) :
    ∀ fuel i, (retryFrom op isC v d fuel i).attempts ≤ i + fuel := by
  intro fuel
  induction fuel using Nat.strong_induction_on with
  | _ fuel ih =>
    intro i
    rcases fuel with _ | _ | f
    · simp [retryFrom]
    · rcases h : op i with e | r
      · simp [retryFrom, h]
      · simp only [retryFrom, h]
        split
        · simp
        · simp
    · rcases h : op i with e | r
      · have := ih (f + 1) (by omega) (i + 1)
        simp only [retryFrom, h]
        omega
      · simp only [retryFrom, h]
        split
        · have := ih (f + 1) (by omega) (i + 1)
          dsimp only
          omega
        · simp

theorem retryFrom_attempts_pos {ε α : Type} (op : Nat → Except ε α) (isC : α → Bool)
    (v : Nat → α → Bool) (d : Nat) :
    ∀ fuel i, 1 ≤ fuel → i + 1 ≤ (retryFrom op isC v d fuel i).attempts := by
  intro fuel
  induction fuel using Nat.strong_induction_on with
  | _ fuel ih =>
    intro i hf
    rcases fuel with _ | _ | f
    · omega
    · rcases h : op i with e | r
      · simp [retryFrom, h]
      · simp only [retryFrom, h]
        split
        · simp
        · simp
    · rcases h : op i with e | r
      · have := ih (f + 1) (by omega) (i + 1) (by omega)
        simp only [retryFrom, h]
        omega
      · simp only [retryFrom, h]
        split
        · have := ih (f + 1) (by omega) (i + 1) (by omega)
          dsimp only
          omega
        · simp

theorem retryFrom_delays {ε α : Type} (op : Nat → Except ε α) (isC : α → Bool)
    (v : Nat → α → Bool) (d : Nat) :
    ∀ fuel i, (retryFrom op isC v d fuel i).delays =
      (List.range ((retryFrom op isC v d fuel i).attempts - 1 - i)).map
        (fun j => d * 2 ^ (i + j)) := by
  intro fuel
  induction fuel using Nat.strong_induction_on with
  | _ fuel ih =>
    intro i
    rcases fuel with _ | _ | f
    · simp [retryFrom]
    · rcases h : op i with e | r
      · simp [retryFrom, h]
      · simp only [retryFrom, h]
        split
        · simp
        · simp
    · have hstep : ∀ A, i + 2 ≤ A →
          (d * 2 ^ i :: (List.range (A - 1 - (i + 1))).map (fun j => d * 2 ^ (i + 1 + j)))
            = (List.range (A - 1 - i)).map (fun j => d * 2 ^ (i + j)) := by
        intro A hA
        have hA1 : A - 1 - i = (A - 1 - (i + 1)) + 1 := by omega
        rw [hA1, List.range_succ_eq_map, List.map_cons, List.map_map]
        have hfn : ((fun j => d * 2 ^ (i + j)) ∘ Nat.succ) = (fun j => d * 2 ^ (i + 1 + j)) := by
          funext j
          have : i + Nat.succ j = i + 1 + j := by omega
          simp [Function.comp, this]
        simp [hfn]
      rcases h : op i with e | r
      · have hd := ih (f + 1) (by omega) (i + 1)
        have ha := retryFrom_attempts_pos op isC v d (f + 1) (i + 1) (by omega)
        simp only [retryFrom, h]
        rw [hd]
        exact hstep _ (by omega)
      · simp only [retryFrom, h]
        split
        · have hd := ih (f + 1) (by omega) (i + 1)
          have ha := retryFrom_attempts_pos op isC v d (f + 1) (i + 1) (by omega)
          rw [hd]
          exact hstep _ (by omega)
        · simp

/-! ### Claim theorems -/

/-- A record with a plainly negative (hence non-positive) timestamp used to
refute C3: `!content.timestamp` is false for `-1`, so validation passes. -/
def negTsRec : TaleContent :=
  { text := [97], media := none, timestamp := -1, tags := none, metadata := none }

/-- A valid record whose text is 50,001 two-byte characters (U+0100):
100,002 UTF-8 bytes — over the claimed 100,000-byte bound — but only
50,001 UTF-16 units, so `content.text.length > 100000` is false. -/
def twoByteBigRec : TaleContent :=
  { text := List.replicate 50001 256, media := none, timestamp := 1, tags := none,
    metadata := none }

/-- Claim C3, counterexample — the claim fails on two clauses.
Timestamp: it states `uploadContent` fails with
`ValidationError("timestamp required")` whenever `timestamp` is *not a
positive number*, but the code only rejects a falsy timestamp (`0` /
`NaN`): a record with `timestamp = -1` passes `validateContent` and
uploads successfully.  Size: it states validation fails with
`ValidationError("text too large")` whenever `text` exceeds 100,000
*bytes*, but the code tests `content.text.length` (UTF-16 units): a
record of 100,002 UTF-8 bytes in 50,001 two-byte characters passes
validation with no error. -/
theorem validateContent_accepts_negative_ts_and_oversized_bytes :
    negTsRec.timestamp < 0 ∧
    validateContent negTsRec = none ∧
    (uploadContent negTsRec (fun _ _ => (.ok "cid" : Except String String))
        (fun _ _ _ => .ok "pinhash")
        (fun _ _ => true) (fun _ _ => true)).result = .ok ("ipfs://" ++ "cid") ∧
    100000 < (utf8Encode twoByteBigRec.text).length ∧
    validateContent twoByteBigRec = none := by
  have htext : twoByteBigRec.text = List.replicate 50001 256 := rfl
  have hbytes : (utf8Encode twoByteBigRec.text).length = 100002 := by
    rw [htext]
    show ((List.replicate 50001 256).map utf8EncodeUnit).flatten.length = 100002
    rw [List.map_replicate]
    have h2 : utf8EncodeUnit 256 = [196, 128] := by decide
    rw [h2, List.length_flatten, List.map_replicate, List.sum_replicate, smul_eq_mul]
    norm_num
  have hlen : twoByteBigRec.text.length = 50001 := by
    rw [htext, List.length_replicate]
  have hv : validateContent twoByteBigRec = none := by
    rw [validateContent]
    rw [if_neg (show ¬ twoByteBigRec.text = [] by
      intro h
      rw [h] at hlen
      simp at hlen)]
    rw [if_neg (show ¬ twoByteBigRec.text.length > maxContentSize by
      rw [hlen]; norm_num [maxContentSize])]
    rw [if_neg (show ¬ twoByteBigRec.timestamp = (0 : Int) by norm_num [twoByteBigRec])]
  refine ⟨by decide, rfl, by with_unfolding_all rfl, by omega, hv⟩

/-- Claim C3 — (amended).  `uploadContent` throws a validation `Error` before
any network call (zero store attempts, zero pin attempts) exactly when the
record is malformed: `"Content text is required"` when `text` is empty,
`"Content text exceeds maximum size of 100000 bytes"` when `text` has more
than 100,000 UTF-16 units, and `"Valid timestamp is required"` when the
timestamp is `0` (falsy); a record passing these checks never produces a
validation error (negative timestamps are accepted). -/
theorem uploadContent_validation {ε : Type} (c : TaleContent)
    (store : TaleContent → Nat → Except ε String)
    (pin : TaleContent → Int → Nat → Except ε String)
    (sv pv : Nat → String → Bool) :
    (c.text = [] →
      uploadContent c store pin sv pv =
        ⟨.error (.validationErr "Content text is required"), 0, 0⟩)
  ∧ (c.text ≠ [] → maxContentSize < c.text.length →
      uploadContent c store pin sv pv =
        ⟨.error (.validationErr "Content text exceeds maximum size of 100000 bytes"), 0, 0⟩)
  ∧ (c.text ≠ [] → c.text.length ≤ maxContentSize → c.timestamp = 0 →
      uploadContent c store pin sv pv =
        ⟨.error (.validationErr "Valid timestamp is required"), 0, 0⟩)
  ∧ (c.text ≠ [] → c.text.length ≤ maxContentSize → c.timestamp ≠ 0 →
      ∀ msg, (uploadContent c store pin sv pv).result ≠ .error (.validationErr msg)) := by
  refine ⟨?_, ?_, ?_, ?_⟩
  · intro h1
    rw [uploadContent]
    simp [validateContent, h1]
  · intro h1 h2
    have hv : validateContent c = some "Content text exceeds maximum size of 100000 bytes" := by
      rw [validateContent, if_neg h1, if_pos (show c.text.length > maxContentSize from h2)]
    rw [uploadContent, hv]
  · intro h1 h2 h3
    have hv : validateContent c = some "Valid timestamp is required" := by
      rw [validateContent, if_neg h1,
        if_neg (show ¬ c.text.length > maxContentSize by omega), if_pos h3]
    rw [uploadContent, hv]
  · intro h1 h2 h3 msg
    rw [uploadContent]
    have hv : validateContent c = none := by
      rw [validateContent, if_neg h1,
        if_neg (show ¬ c.text.length > maxContentSize by omega), if_neg h3]
    rw [hv]
    rcases hs : (retryRun (store (compressContent c)) isIpfsUri sv).result with e | cid
    · simp [hs]
    · rcases hp : (retryRun (pin (compressContent c) c.timestamp)
          isIpfsUri pv).result with e | pinres
      · simp [hs, hp]
      · simp [hs, hp]

/-- Claim C3, witness — -/
theorem uploadContent_validation_witness :
    (uploadContent { text := [], media := none, timestamp := 1, tags := none, metadata := none }
        (fun _ _ => (.ok "cid" : Except String String)) (fun _ _ _ => .ok "pinhash")
        (fun _ _ => true) (fun _ _ => true)) =
      ⟨.error (.validationErr "Content text is required"), 0, 0⟩ :=
  (uploadContent_validation _ _ _ _ _).1 rfl

/-- A validated record whose text is 501 two-byte characters (U+0100):
1002 UTF-8 bytes but 501 UTF-16 units. -/
def twoByteRec : TaleContent :=
  { text := List.replicate 501 256, media := none, timestamp := 1, tags := none,
    metadata := none }

/-- Claim C4, counterexample —  The claim ties the compression threshold to
*bytes*: a validated record whose text is longer than 1000 bytes must be
compressed with `metadata.compressed = true`.  The code tests
`content.text.length > 1000`, which counts UTF-16 code units: this record
is 1002 UTF-8 bytes long yet is returned untouched with no flag set. -/
theorem compressContent_counts_units_not_bytes :
    validateContent twoByteRec = none ∧
    1000 < (utf8Encode twoByteRec.text).length ∧
    compressContent twoByteRec = twoByteRec ∧
    metadataCompressedTruthy (compressContent twoByteRec).metadata = false := by
  have hlen : twoByteRec.text.length = 501 := by
    simp [twoByteRec]
  have hbytes : (utf8Encode twoByteRec.text).length = 1002 := by
    show ((List.replicate 501 256).map utf8EncodeUnit).flatten.length = 1002
    rw [List.map_replicate]
    have : utf8EncodeUnit 256 = [196, 128] := by decide
    rw [this]
    rw [List.length_flatten, List.map_replicate, List.sum_replicate]
    rfl
  have hc : compressContent twoByteRec = twoByteRec := by
    rw [compressContent, if_neg (by omega)]
  refine ⟨rfl, by omega, hc, by rw [hc]; rfl⟩

/-- Claim C4 — (amended).  For every record that passes validation: if its
text is longer than 1000 UTF-16 code units (the unit of JS string
`length`; equal to bytes only for plain ASCII), the upload path gzips the
UTF-8 bytes of the text, re-encodes the result as base64 and overwrites
`metadata.compressed = true`; otherwise the record is returned untouched. -/
theorem compressContent_transform (c : TaleContent)
    (_hv : validateContent c = none) :
    (1000 < c.text.length →
      compressContent c =
        { c with text := b64Encode (gzipModel (utf8Encode c.text)),
                 metadata := some (setCompressed c.metadata true) })
  ∧ (c.text.length ≤ 1000 → compressContent c = c) := by
  constructor
  · intro h
    rw [compressContent, if_pos (by omega)]
  · intro h
    rw [compressContent, if_neg (by omega)]

/-- A small validated record used as witness input. -/
def hiRec : TaleContent :=
  { text := [104, 105], media := none, timestamp := 5, tags := none, metadata := none }

/-- Claim C4, witness — -/
theorem compressContent_transform_witness :
    compressContent hiRec = hiRec :=
  (compressContent_transform hiRec rfl).2 (by decide)

/-- Core round-trip fact for the compressed branch: retrieving the stored
(compressed) form of a validated record with ASCII text longer than 1000
units succeeds, restores the original text, and clears the flag. -/
theorem retrieveContentNew_compressContent (c : TaleContent)
    (hlen : 1000 < c.text.length) (hascii : ∀ x ∈ c.text, x < 128) :
    retrieveContentNew (some (compressContent c)) =
      .ok { c with metadata := some (setCompressed c.metadata false) } := by
  have hc : compressContent c =
      { c with text := b64Encode (gzipModel (utf8Encode c.text)),
               metadata := some (setCompressed c.metadata true) } := by
    rw [compressContent, if_pos (by omega)]
  have hbytes : ∀ x ∈ gzipModel (utf8Encode c.text), x < 256 := by
    apply gzipModel_lt_256
    intro x hx
    rw [utf8Encode_ascii c.text hascii] at hx
    have := hascii x hx
    omega
  rw [hc, retrieveContentNew]
  have htru : metadataCompressedTruthy (some (setCompressed c.metadata true)) = true := rfl
  simp only [htru, if_true]
  rw [b64Decode_b64Encode _ hbytes, gunzipModel_gzipModel]
  simp only [utf8Encode_ascii c.text hascii, utf8Decode_ascii c.text hascii]
  rfl

/-- The record used as the C1/C8 counterexample input: text of one ASCII
character (so the compression branch is not taken) and caller-supplied
`metadata.compressed = true`. -/
def smallFlaggedRec : TaleContent :=
  { text := [97], media := none, timestamp := 1, tags := none,
    metadata := some { compressed := some true, others := [] } }

/-- Claim C1, counterexample —  A valid record with `text` of 1 byte and
caller-supplied `metadata.compressed = true`: the upload path stores it
byte-identically (flag still truthy, not false/absent as the claim
requires), and retrieval then attempts to gunzip the one-character text,
which throws — so `retrieveContent(uploadContent(r))` is an error, not
`r`. -/
theorem roundtrip_fails_on_caller_compressed_flag :
    validateContent smallFlaggedRec = none ∧
    smallFlaggedRec.text.length ≤ 1000 ∧
    compressContent smallFlaggedRec = smallFlaggedRec ∧
    metadataCompressedTruthy (compressContent smallFlaggedRec).metadata = true ∧
    retrieveContentNew (some (compressContent smallFlaggedRec)) = .error .gunzipFailed := by
  exact ⟨rfl, by decide, rfl, rfl, by with_unfolding_all rfl⟩

/-- Claim C1 — (amended).  For every valid record: if the text is at most 1000
units and the caller did not supply a truthy `metadata.compressed`, the
stored record is identical to the input and retrieval returns it verbatim;
if the text is plain ASCII and longer than 1000 units (hence more than
1000 bytes), the stored text differs from the original,
`metadata.compressed` is stored `true`, and retrieval restores the
original text with `metadata.compressed = false`. -/
theorem uploadContent_roundtrip (r : TaleContent) (hv : validateContent r = none) :
    ((r.text.length ≤ 1000 ∧ metadataCompressedTruthy r.metadata = false) →
      compressContent r = r ∧
      retrieveContentNew (some (compressContent r)) = .ok r)
  ∧ ((1000 < r.text.length ∧ ∀ x ∈ r.text, x < 128) →
      (compressContent r).text ≠ r.text ∧
      metadataCompressedTruthy (compressContent r).metadata = true ∧
      retrieveContentNew (some (compressContent r)) =
        .ok { r with metadata := some (setCompressed r.metadata false) }) := by
  constructor
  · rintro ⟨hlen, hflag⟩
    have hc : compressContent r = r := by
      rw [compressContent, if_neg (by omega)]
    refine ⟨hc, ?_⟩
    rw [hc, retrieveContentNew, hflag]
    simp
  · rintro ⟨hlen, hascii⟩
    have hc : compressContent r =
        { r with text := b64Encode (gzipModel (utf8Encode r.text)),
                 metadata := some (setCompressed r.metadata true) } := by
      rw [compressContent, if_pos (by omega)]
    refine ⟨?_, ?_, retrieveContentNew_compressContent r hlen hascii⟩
    · rw [hc]
      intro heq
      have h1 := b64Encode_length_ge (gzipModel (utf8Encode r.text))
      have h2 := gzipModel_length_ge (utf8Encode r.text)
      have h3 := utf8Encode_length_ge r.text
      have h4 := congrArg List.length heq
      dsimp only at h4
      omega
    · rw [hc]
      rfl

/-- Small valid ASCII record without caller metadata (C1 witness input). -/
def asciiSmallRec : TaleContent :=
  { text := [97], media := none, timestamp := 1, tags := none, metadata := none }

/-- Valid record with 1001 ASCII characters (C1 witness input). -/
def asciiBigRec : TaleContent :=
  { text := List.replicate 1001 97, media := none, timestamp := 1, tags := none,
    metadata := none }

/-- Claim C1, witness — -/
theorem uploadContent_roundtrip_witness :
    (compressContent asciiSmallRec = asciiSmallRec ∧
      retrieveContentNew (some (compressContent asciiSmallRec)) = .ok asciiSmallRec) ∧
    ((compressContent asciiBigRec).text ≠ asciiBigRec.text ∧
      metadataCompressedTruthy (compressContent asciiBigRec).metadata = true ∧
      retrieveContentNew (some (compressContent asciiBigRec)) =
        .ok { asciiBigRec with metadata := some (setCompressed asciiBigRec.metadata false) }) :=
  ⟨(uploadContent_roundtrip asciiSmallRec rfl).1 ⟨by decide, rfl⟩,
   (uploadContent_roundtrip asciiBigRec (by decide)).2
     ⟨by decide, fun x hx => by rw [List.eq_of_mem_replicate hx]; omega⟩⟩

/-- The record used to refute C8: one-character text, caller metadata
using the reserved `compressed` key (truthy) plus an unrelated entry. -/
def flaggedOtherRec : TaleContent :=
  { text := [98], media := none, timestamp := 2, tags := none,
    metadata := some { compressed := some true, others := [("k", "v")] } }

/-- Claim C8, counterexample —  The claim says the write path overwrites
`metadata.compressed` for *every* record.  For a record whose text is not
longer than 1000 units the write path leaves the caller's metadata —
including a truthy `compressed` — completely untouched, and the read path
then corrupts the round trip by gunzipping plain text (an error). -/
theorem compressed_flag_not_overwritten_on_small_text :
    flaggedOtherRec.text.length ≤ 1000 ∧
    compressContent flaggedOtherRec = flaggedOtherRec ∧
    metadataCompressedTruthy (compressContent flaggedOtherRec).metadata = true ∧
    retrieveContentNew (some (compressContent flaggedOtherRec)) = .error .gunzipFailed := by
  exact ⟨by decide, rfl, rfl, by with_unfolding_all rfl⟩

/-- Claim C8 — (amended).  The pipeline overwrites the reserved
`metadata.compressed` key only on the compression branch: when the text is
longer than 1000 units the stored flag is `true` whatever the caller
supplied (other metadata entries preserved), and on read (for ASCII text)
the flag is restored to `false`; when the text is at most 1000 units the
record — including any caller-supplied `compressed` value — passes through
unchanged. -/
theorem compressed_flag_reserved (r : TaleContent) :
    (1000 < r.text.length →
      (compressContent r).metadata = some (setCompressed r.metadata true))
  ∧ (1000 < r.text.length → (∀ x ∈ r.text, x < 128) →
      retrieveContentNew (some (compressContent r)) =
        .ok { r with metadata := some (setCompressed r.metadata false) })
  ∧ (r.text.length ≤ 1000 → compressContent r = r) := by
  refine ⟨?_, ?_, ?_⟩
  · intro hlen
    rw [compressContent, if_pos (by omega)]
  · intro hlen hascii
    exact retrieveContentNew_compressContent r hlen hascii
  · intro hlen
    rw [compressContent, if_neg (by omega)]

/-- Record with long ASCII text and a caller-supplied falsy `compressed`
key (C8 witness input). -/
def flaggedBigRec : TaleContent :=
  { text := List.replicate 1001 98, media := none, timestamp := 3, tags := none,
    metadata := some { compressed := some false, others := [("k", "v")] } }

/-- Claim C8, witness — -/
theorem compressed_flag_reserved_witness :
    (compressContent flaggedBigRec).metadata =
      some (setCompressed flaggedBigRec.metadata true) :=
  (compressed_flag_reserved flaggedBigRec).1 (by decide)

/-- Claim C9 —  Constructing a `ContentManager` fails with the
`NFT_STORAGE_KEY` error message exactly when the environment variable is
unset or empty; every successfully constructed manager carries the
non-empty key as its client credential, so no public operation can run
without one. -/
theorem mkContentManager_requires_key (env : Option String) :
    mkContentManager none = .error nftKeyErrMsg
  ∧ mkContentManager (some "") = .error nftKeyErrMsg
  ∧ ((∃ m, mkContentManager env = .ok m) ↔ ∃ s, env = some s ∧ s ≠ "")
  ∧ (∀ m, mkContentManager env = .ok m → m.token ≠ "" ∧ env = some m.token)
  ∧ nftKeyErrMsg = "NFT_STORAGE_KEY" ++ " is not set in environment variables" := by
  refine ⟨rfl, rfl, ?_, ?_, by decide⟩
  · cases env with
    | none => simp [mkContentManager]
    | some s =>
      by_cases hs : s = "" <;> simp [mkContentManager, hs]
  · intro m hm
    cases env with
    | none => simp [mkContentManager] at hm
    | some s =>
      by_cases hs : s = ""
      · simp [mkContentManager, hs] at hm
      · simp [mkContentManager, hs] at hm
        subst hm
        exact ⟨hs, rfl⟩

/-- Claim C9, witness — -/
theorem mkContentManager_requires_key_witness :
    ∃ m, mkContentManager (some "k") = .ok m :=
  (mkContentManager_requires_key (some "k")).2.2.1.mpr ⟨"k", rfl, by decide⟩

/-- Claim C10 —  `uploadMedia` performs no input validation: for every buffer
(however small or large) and every MIME type, the result is never a
validation error, and the upload protocol is entered directly (the
primary-store retry loop always makes between 1 and `maxRetries`
attempts). -/
theorem uploadMedia_no_validation {ε : Type} (file : List Nat) (mediaType : String)
    (now : Int) (store : List Nat → String → Nat → Except ε String)
    (pin : List Nat → Int → Nat → Except ε String)
    (sv pv : Nat → String → Bool) :
    (∀ msg, (uploadMedia file mediaType now store pin sv pv).result ≠
        .error (.validationErr msg))
  ∧ 1 ≤ (uploadMedia file mediaType now store pin sv pv).storeAttempts
  ∧ (uploadMedia file mediaType now store pin sv pv).storeAttempts ≤ maxRetries := by
  have hpos := retryFrom_attempts_pos (store file mediaType) isIpfsUri sv retryDelay
    maxRetries 0 (by norm_num [maxRetries])
  have hle := retryFrom_attempts_le (store file mediaType) isIpfsUri sv retryDelay
    maxRetries 0
  rw [uploadMedia]
  rcases hs : (retryRun (store file mediaType) isIpfsUri sv).result with e | cid
  · simp only [hs]
    exact ⟨fun msg => by simp, by simpa [retryRun] using hpos, by simpa [retryRun] using hle⟩
  · rcases hp : (retryRun (pin file now) isIpfsUri pv).result with e | pinres
    · simp only [hs, hp]
      exact ⟨fun msg => by simp, by simpa [retryRun] using hpos, by simpa [retryRun] using hle⟩
    · simp only [hs, hp]
      exact ⟨fun msg => by simp, by simpa [retryRun] using hpos, by simpa [retryRun] using hle⟩

/-- Claim C10, witness — (a buffer above the 100,000-byte text limit). -/
theorem uploadMedia_no_validation_witness :
    (uploadMedia (List.replicate 100001 0) "video/mp4" 0
        (fun _ _ _ => (.ok "cid" : Except String String)) (fun _ _ _ => .ok "pinhash")
        (fun _ _ => true) (fun _ _ => true)).result ≠
      .error (.validationErr "Content text is required") :=
  (uploadMedia_no_validation _ _ _ _ _ _ _).1 "Content text is required"

/-- If every attempt in the window fails, the loop exhausts its fuel and
propagates the last attempt's error. -/
theorem retryFrom_all_errors {ε α : Type} (op : Nat → Except ε α) (isC : α → Bool)
    (v : Nat → α → Bool) (d : Nat) (g : Nat → ε) :
    ∀ fuel i, 1 ≤ fuel → (∀ j, j < fuel → op (i + j) = .error (g (i + j))) →
      (retryFrom op isC v d fuel i).result = .error (.opErr (g (i + fuel - 1))) ∧
      (retryFrom op isC v d fuel i).attempts = i + fuel := by
  intro fuel
  induction fuel using Nat.strong_induction_on with
  | _ fuel ih =>
    intro i hf hall
    rcases fuel with _ | _ | f
    · omega
    · have h0 : op i = .error (g i) := by simpa using hall 0 (by omega)
      simp [retryFrom, h0]
    · have h0 : op i = .error (g i) := by simpa using hall 0 (by omega)
      have hrest := ih (f + 1) (by omega) (i + 1) (by omega) (by
        intro j hj
        have := hall (j + 1) (by omega)
        rwa [show i + (j + 1) = i + 1 + j by omega] at this)
      simp only [retryFrom, h0]
      rw [show i + 1 + (f + 1) - 1 = i + (f + 2) - 1 by omega] at hrest
      exact ⟨hrest.1, by omega⟩

/-- If the first `k` attempts fail and attempt `k` succeeds cleanly (not an
`ipfs://` string failing verification), the loop returns that result after
exactly `k + 1` attempts. -/
theorem retryFrom_first_success {ε α : Type} (op : Nat → Except ε α) (isC : α → Bool)
    (v : Nat → α → Bool) (d : Nat) (r : α) :
    ∀ fuel i k, k < fuel →
      (∀ j, j < k → ∃ e, op (i + j) = .error e) →
      op (i + k) = .ok r → (isC r = false ∨ v (i + k) r = true) →
      (retryFrom op isC v d fuel i).result = .ok r ∧
      (retryFrom op isC v d fuel i).attempts = i + k + 1 := by
  intro fuel
  induction fuel using Nat.strong_induction_on with
  | _ fuel ih =>
    intro i k hk hfail hok hclean
    rcases k with _ | k
    · have h0 : op i = .ok r := by simpa using hok
      have hcl : isC r = false ∨ v i r = true := by simpa using hclean
      rcases fuel with _ | _ | f
      · omega
      · rcases hcl with hc | hc <;> simp [retryFrom, h0, hc]
      · rcases hcl with hc | hc <;> simp [retryFrom, h0, hc]
    · rcases fuel with _ | _ | f
      · omega
      · omega
      · obtain ⟨e0, h0⟩ : ∃ e, op i = .error e := by simpa using hfail 0 (by omega)
        have hrest := ih (f + 1) (by omega) (i + 1) k (by omega) (by
          intro j hj
          obtain ⟨e, he⟩ := hfail (j + 1) (by omega)
          exact ⟨e, by rwa [show i + (j + 1) = i + 1 + j by omega] at he⟩)
          (by rwa [show i + (k + 1) = i + 1 + k by omega] at hok)
          (by rwa [show i + (k + 1) = i + 1 + k by omega] at hclean)
        simp only [retryFrom, h0]
        exact ⟨hrest.1, by have h2 := hrest.2; omega⟩

/-- Claim C5 —  The retry mechanism with the class configuration
(`maxRetries = 3`, `retryDelay = 1000` ms): every call makes at most 3
attempts; the waits slept are exactly `retryDelay * 2^j` for each
non-final failed attempt `j` (so none after the final failure); a
dependency failing twice then succeeding yields success after exactly 3
invocations; a dependency that always fails makes exactly `maxRetries`
attempts and propagates the last error, having slept twice. -/
theorem retry_exponential_backoff {ε α : Type} (op : Nat → Except ε α)
    (isC : α → Bool) (v : Nat → α → Bool) :
    (retryRun op isC v).attempts ≤ maxRetries
  ∧ (retryRun op isC v).delays =
      (List.range ((retryRun op isC v).attempts - 1)).map (fun j => retryDelay * 2 ^ j)
  ∧ (∀ e0 e1 r, op 0 = .error e0 → op 1 = .error e1 → op 2 = .ok r →
      (isC r = false ∨ v 2 r = true) →
      (retryRun op isC v).result = .ok r ∧ (retryRun op isC v).attempts = 3)
  ∧ (∀ f : Nat → ε, (∀ i, i < maxRetries → op i = .error (f i)) →
      (retryRun op isC v).result = .error (.opErr (f 2)) ∧
      (retryRun op isC v).attempts = 3 ∧
      (retryRun op isC v).delays = [retryDelay * 2 ^ 0, retryDelay * 2 ^ 1]) := by
  have hle := retryFrom_attempts_le op isC v retryDelay maxRetries 0
  have hds := retryFrom_delays op isC v retryDelay maxRetries 0
  refine ⟨by simpa [retryRun] using hle, by simpa [retryRun] using hds, ?_, ?_⟩
  · intro e0 e1 r h0 h1 h2 hclean
    have := retryFrom_first_success op isC v retryDelay r maxRetries 0 2
      (by norm_num [maxRetries])
      (by
        intro j hj
        rcases j with _ | j
        · exact ⟨e0, by simpa using h0⟩
        · have : j = 0 := by omega
          subst this
          exact ⟨e1, by simpa using h1⟩)
      (by simpa using h2) (by simpa using hclean)
    rw [retryRun]
    exact ⟨this.1, by have h2 := this.2; omega⟩
  · intro f hf
    have hall := retryFrom_all_errors op isC v retryDelay f maxRetries 0
      (by norm_num [maxRetries])
      (by intro j hj; simpa using hf j (by simpa using hj))
    have hres : (retryRun op isC v).result = .error (.opErr (f 2)) := by
      rw [retryRun]
      have := hall.1
      rwa [show 0 + maxRetries - 1 = 2 by norm_num [maxRetries]] at this
    have hat : (retryRun op isC v).attempts = 3 := by
      rw [retryRun]
      have := hall.2
      rw [this]
      norm_num [maxRetries]
    refine ⟨hres, hat, ?_⟩
    have := hds
    rw [← retryRun] at this
    rw [this, hat]
    norm_num [List.range_succ, retryDelay]

/-- Claim C5, witness — -/
theorem retry_exponential_backoff_witness :
    (retryRun (fun i => if i < 2 then (.error "fail" : Except String Nat) else .ok 7)
        (fun _ => false) (fun _ _ => true)).result = .ok 7 ∧
    (retryRun (fun i => if i < 2 then (.error "fail" : Except String Nat) else .ok 7)
        (fun _ => false) (fun _ _ => true)).attempts = 3 :=
  (retry_exponential_backoff _ _ _).2.2.1 "fail" "fail" 7 rfl rfl rfl (Or.inl rfl)

/-- Claim C6 —  Upload ordering and atomicity: under a validated record, if
the primary-store retry loop ends in an error, `uploadContent` fails with
that error and the pin loop is never entered (`pinAttempts = 0`, no
address returned); if the store loop succeeds but the pin retry loop ends
in an error, `uploadContent` as a whole fails with the pin error (a hard
failure, not a warning). -/
theorem uploadContent_store_pin_ordering {ε : Type} (c : TaleContent)
    (store : TaleContent → Nat → Except ε String)
    (pin : TaleContent → Int → Nat → Except ε String)
    (sv pv : Nat → String → Bool)
    (hv : validateContent c = none) :
    (∀ e, (retryRun (store (compressContent c)) isIpfsUri sv).result = .error e →
      uploadContent c store pin sv pv =
        ⟨.error (.opFailed e),
         (retryRun (store (compressContent c)) isIpfsUri sv).attempts, 0⟩)
  ∧ (∀ cid e, (retryRun (store (compressContent c)) isIpfsUri sv).result = .ok cid →
      (retryRun (pin (compressContent c) c.timestamp) isIpfsUri pv).result = .error e →
      uploadContent c store pin sv pv =
        ⟨.error (.opFailed e),
         (retryRun (store (compressContent c)) isIpfsUri sv).attempts,
         (retryRun (pin (compressContent c) c.timestamp) isIpfsUri pv).attempts⟩) := by
  constructor
  · intro e he
    rw [uploadContent, hv]
    dsimp only
    rw [he]
  · intro cid e hs hp
    rw [uploadContent, hv]
    dsimp only
    rw [hs]
    dsimp only
    rw [hp]

/-- Claim C6, witness — (a permanently failing store dependency: the pin
oracle is never consulted). -/
theorem uploadContent_store_pin_ordering_witness :
    uploadContent asciiSmallRec (fun _ _ => (.error "down" : Except String String))
        (fun _ _ _ => .ok "pinhash") (fun _ _ => true) (fun _ _ => true) =
      ⟨.error (.opFailed (.opErr "down")),
       (retryRun ((fun (_ : TaleContent) (_ : Nat) => (.error "down" : Except String String))
           (compressContent asciiSmallRec)) isIpfsUri (fun _ _ => true)).attempts, 0⟩ :=
  (uploadContent_store_pin_ordering asciiSmallRec _ _ _ _ rfl).1 (.opErr "down")
    (by with_unfolding_all rfl)

/-- Claim C2 —  The gateway-fallback `retrieveContent`: gateways are queried
in the fixed order primary-store gateway (`nftstorage.link`), public
mirror (`ipfs.io`), pinning-service gateway (`gateway.pinata.cloud`); the
trace of gateways actually fetched is always a prefix of that list (later
endpoints are never called before earlier ones); the first successful
response is returned and stops the loop; and the exhausted-gateways error
is raised exactly when all three fetches fail. -/
theorem retrieveContent_gateway_fallback (fetch : String → Option TaleContent)
    (hash : String) :
    ((retrieveContentFallback fetch hash).2 =
      (fallbackGateways hash).take (retrieveContentFallback fetch hash).2.length)
  ∧ (∀ c, fetch (urlNftStorage hash) = some c →
      retrieveContentFallback fetch hash = (.ok c, [urlNftStorage hash]))
  ∧ (∀ c, fetch (urlNftStorage hash) = none → fetch (urlIpfsMirror hash) = some c →
      retrieveContentFallback fetch hash = (.ok c, [urlNftStorage hash, urlIpfsMirror hash]))
  ∧ (∀ c, fetch (urlNftStorage hash) = none → fetch (urlIpfsMirror hash) = none →
      fetch (urlPinata hash) = some c →
      retrieveContentFallback fetch hash =
        (.ok c, [urlNftStorage hash, urlIpfsMirror hash, urlPinata hash]))
  ∧ ((retrieveContentFallback fetch hash).1 = .error .notFoundOnAnyGateway ↔
      ∀ u ∈ fallbackGateways hash, fetch u = none) := by
  refine ⟨?_, ?_, ?_, ?_, ?_⟩
  · rcases h0 : fetch (urlNftStorage hash) with _ | c0
    · rcases h1 : fetch (urlIpfsMirror hash) with _ | c1
      · rcases h2 : fetch (urlPinata hash) with _ | c2
        · simp [retrieveContentFallback, tryGateways, fallbackGateways, h0, h1, h2]
        · simp [retrieveContentFallback, tryGateways, fallbackGateways, h0, h1, h2]
      · simp [retrieveContentFallback, tryGateways, fallbackGateways, h0, h1]
    · simp [retrieveContentFallback, tryGateways, fallbackGateways, h0]
  · intro c hc
    simp [retrieveContentFallback, tryGateways, fallbackGateways, hc]
  · intro c h0 h1
    simp [retrieveContentFallback, tryGateways, fallbackGateways, h0, h1]
  · intro c h0 h1 h2
    simp [retrieveContentFallback, tryGateways, fallbackGateways, h0, h1, h2]
  · constructor
    · intro hres u hu
      rcases h0 : fetch (urlNftStorage hash) with _ | c0
      · rcases h1 : fetch (urlIpfsMirror hash) with _ | c1
        · rcases h2 : fetch (urlPinata hash) with _ | c2
          · simp only [fallbackGateways, List.mem_cons, List.not_mem_nil, or_false] at hu
            rcases hu with rfl | rfl | rfl <;> assumption
          · exfalso
            simp [retrieveContentFallback, tryGateways, fallbackGateways, h0, h1, h2] at hres
        · exfalso
          simp [retrieveContentFallback, tryGateways, fallbackGateways, h0, h1] at hres
      · exfalso
        simp [retrieveContentFallback, tryGateways, fallbackGateways, h0] at hres
    · intro hall
      have h0 := hall (urlNftStorage hash) (by simp [fallbackGateways])
      have h1 := hall (urlIpfsMirror hash) (by simp [fallbackGateways])
      have h2 := hall (urlPinata hash) (by simp [fallbackGateways])
      simp [retrieveContentFallback, tryGateways, fallbackGateways, h0, h1, h2]

/-- Claim C2, witness — (first two gateways fail, third succeeds). -/
theorem retrieveContent_gateway_fallback_witness :
    retrieveContentFallback
        (fun u => if u = urlPinata "h" then some asciiSmallRec else none) "h" =
      (.ok asciiSmallRec,
       [urlNftStorage "h", urlIpfsMirror "h", urlPinata "h"]) :=
  (retrieveContent_gateway_fallback _ "h").2.2.2.1 asciiSmallRec
    (by rw [if_neg (by decide)]) (by rw [if_neg (by decide)]) (by rw [if_pos rfl])

/-- Claim C7 —  `verifyContent` is a total Boolean function of the retrieval
outcome (it never raises): it returns `true` exactly when
`retrieveContent` succeeds with a document whose `text` is a string and
whose `timestamp` is a number, and `false` on every retrieval error —
including when the retrieval endpoint fails (`fetch = none`). -/
theorem verifyContent_total (fetch : Option (Option RawContent)) :
    (verifyContent fetch = true ↔
      ∃ c, retrieveContentOldSingle fetch = .ok c ∧
        (∃ s, c.text = .jstr s) ∧ (∃ n, c.timestamp = .jnum n))
  ∧ (∀ e, retrieveContentOldSingle fetch = .error e → verifyContent fetch = false)
  ∧ (fetch = none → verifyContent fetch = false) := by
  refine ⟨?_, ?_, ?_⟩
  · rw [verifyContent]
    rcases hr : retrieveContentOldSingle fetch with e | c
    · simp
    · dsimp only
      rw [Bool.and_eq_true]
      constructor
      · rintro ⟨h1, h2⟩
        refine ⟨c, rfl, ?_, ?_⟩
        · rcases htc : c.text with s | n | b | _ <;> rw [htc] at h1 <;>
            first
            | exact ⟨s, rfl⟩
            | simp at h1
        · rcases htt : c.timestamp with s | n | b | _ <;> rw [htt] at h2 <;>
            first
            | exact ⟨n, rfl⟩
            | simp at h2
      · rintro ⟨c', hc', ⟨s, hs⟩, ⟨n, hn⟩⟩
        have hcc : c = c' := by
          injection hc' with h
        subst hcc
        rw [hs, hn]
        exact ⟨rfl, rfl⟩
  · intro e he
    rw [verifyContent, he]
  · intro h
    subst h
    rfl

/-- Claim C7, witness — (the retrieval endpoint fails). -/
theorem verifyContent_total_witness : verifyContent none = false :=
  (verifyContent_total none).2.2 rfl
